import Mathlib

/-!
Verification development for the FHMQV authenticated key-agreement domain
(`FHMQV_Domain` in `RemoteDesktop_Library/fhmqv.h`).

The group-parameter object, the element codec/validator and the hash
primitive are external collaborators of the core; they are modelled as
fields of a `Dom` structure.  Bytes are modelled as natural numbers in a
`List Nat`; machine reads of `len` bytes at a pointer become
`List.take len` / `List.drop len` on the list.  The `DL_BadElement`
exception thrown by `DecodeElement` is modelled by `decodeElement`
returning `none`; the `try ... catch` block of `Agree` becomes an
`Except Unit` value that the outer wrapper converts to the boolean
result, leaving the caller-supplied output buffer untouched on failure,
exactly as the C++ does.
-/

/-- Big-endian interpretation of a byte string as a natural number
(`Integer::Decode` / the `Integer(ptr, len)` constructor). -/
def beNat (bs : List Nat) : Nat := bs.foldl (fun acc b => acc * 256 + b) 0

/-- Fixed-width big-endian encoding of `n` into `len` bytes
(`Integer::Encode`). -/
def beEncode (n len : Nat) : List Nat :=
  (List.range len).map (fun i => n / 256 ^ (len - 1 - i) % 256)

/-- Fuel-driven bit-length worker; `fuel ≥ n` makes it total on `n`. -/
def bitCountAux : Nat → Nat → Nat
  | 0, _ => 0
  | _ + 1, 0 => 0
  | fuel + 1, n + 1 => bitCountAux fuel ((n + 1) / 2) + 1

/-- Bit length of a natural number (`Integer::BitCount`). -/
def bitCount (n : Nat) : Nat := bitCountAux n n

/-- Byte length of a natural number (`Integer::ByteCount`). -/
def byteCount (n : Nat) : Nat := (bitCount n + 7) / 8

/-- Ceiling division on naturals, used only to state the spec's
`ceil` formulas. -/
def ceilDivNat (a b : Nat) : Nat := (a + b - 1) / b

/-- The two key-agreement roles (`KeyAgreementRole`). -/
inductive Role where
  | Client : Role
  | Server : Role
deriving DecidableEq

/-- The FHMQV domain: the group-parameter provider and the hash
primitive consumed by `FHMQV_Domain`.  `decodeElement` models
`DecodeElement(bytes, false)` including its internal level-1 check:
`none` stands for a thrown `DL_BadElement`.  `hashFn` is the full
(untruncated) digest of the whole update stream; `TruncatedFinal`
becomes a `List.take`. -/
structure Dom (Element : Type) where
  groupOrder : Nat
  subgroupOrder : Nat
  maxExponent : Nat
  encodedElementSize : Nat
  expBase : Nat → Element
  expElem : Element → Nat → Element
  mulElems : Element → Element → Element
  encodeElement : Element → List Nat
  decodeElement : List Nat → Option Element
  validateElement : Nat → Element → Bool
  digestSize : Nat
  hashFn : List Nat → List Nat

/-- Model of a randomness source: maps a requested (min, max) range to
the integer drawn. -/
def RNG : Type := Nat → Nat → Nat

variable {Element : Type}

/-- `StaticPrivateKeyLength()` = byte count of the subgroup order. -/
def StaticPrivateKeyLength (D : Dom Element) : Nat := byteCount D.subgroupOrder

/-- `StaticPublicKeyLength()` = encoded element size. -/
def StaticPublicKeyLength (D : Dom Element) : Nat := D.encodedElementSize

/-- `AgreedValueLength()` = the hash's digest size. -/
def AgreedValueLength (D : Dom Element) : Nat := D.digestSize

/-- `EphemeralPrivateKeyLength()`. -/
def EphemeralPrivateKeyLength (D : Dom Element) : Nat :=
  StaticPrivateKeyLength D + StaticPublicKeyLength D

/-- `EphemeralPublicKeyLength()`. -/
def EphemeralPublicKeyLength (D : Dom Element) : Nat := StaticPublicKeyLength D

/-- The protected `Hash` member: optional `sigma` prefix (its compressed
element encoding) followed by the four operand buffers, truncated to
`min dlen DIGESTSIZE` bytes. -/
def HashFn (D : Dom Element) (sigma : Option Element)
    (e1 e2 s1 s2 : List Nat) (dlen : Nat) : List Nat :=
  let pre : List Nat :=
    match sigma with
    | some s => D.encodeElement s
    | none => []
  (D.hashFn (pre ++ e1 ++ e2 ++ s1 ++ s2)).take (min dlen D.digestSize)

/-- The challenge truncation length computed inside `Agree`:
`(((q.BitCount() + 1) / 2 + 7) / 8)`. -/
def challengeLen (q : Nat) : Nat := ((bitCount q + 1) / 2 + 7) / 8

/-- Challenge `d`: decode of `Hash(NULL, XX, YY, AA, BB)` truncated to
`challengeLen` bytes. -/
def challengeD (D : Dom Element) (XX YY AA BB : List Nat) : Nat :=
  beNat (HashFn D none XX YY AA BB (challengeLen D.subgroupOrder))

/-- Challenge `e`: decode of `Hash(NULL, YY, XX, AA, BB)` truncated to
`challengeLen` bytes. -/
def challengeE (D : Dom Element) (XX YY AA BB : List Nat) : Nat :=
  beNat (HashFn D none YY XX AA BB (challengeLen D.subgroupOrder))

/-- The encoding of one's own static public key, recomputed from the
static private key into the scratch block `tt`. -/
def ownStaticPub (D : Dom Element) (spk : List Nat) : List Nat :=
  D.encodeElement (D.expBase (beNat (spk.take (StaticPrivateKeyLength D))))

/-- The embedded public-key half of an ephemeral private blob
(`ephemeralPrivateKey + StaticPrivateKeyLength()`, read for
`EphemeralPublicKeyLength()` bytes). -/
def ephPublicPart (D : Dom Element) (blob : List Nat) : List Nat :=
  (blob.drop (StaticPrivateKeyLength D)).take (EphemeralPublicKeyLength D)

/-- Operand `XX` after role labeling. -/
def labelXX (D : Dom Element) (role : Role) (eph eopk : List Nat) : List Nat :=
  match role with
  | Role.Server => eopk
  | Role.Client => ephPublicPart D eph

/-- Operand `YY` after role labeling. -/
def labelYY (D : Dom Element) (role : Role) (eph eopk : List Nat) : List Nat :=
  match role with
  | Role.Server => ephPublicPart D eph
  | Role.Client => eopk

/-- Operand `AA` after role labeling. -/
def labelAA (D : Dom Element) (role : Role) (spk sopk : List Nat) : List Nat :=
  match role with
  | Role.Server => sopk
  | Role.Client => ownStaticPub D spk

/-- Operand `BB` after role labeling. -/
def labelBB (D : Dom Element) (role : Role) (spk sopk : List Nat) : List Nat :=
  match role with
  | Role.Server => ownStaticPub D spk
  | Role.Client => sopk

/-- Step 5 of `Agree`: decode the two labelled operands, combine the
exponent and compute the shared element; `none` models a thrown
`DL_BadElement` during the decodes. -/
def computeSigma (D : Dom Element) (role : Role) (spk eph : List Nat)
    (d e : Nat) (XX YY AA BB : List Nat) : Option Element :=
  let q := D.subgroupOrder
  match role with
  | Role.Server =>
    let y := beNat (eph.take (StaticPrivateKeyLength D))
    let b := beNat (spk.take (StaticPrivateKeyLength D))
    let sB := (y + e * b) % q
    match D.decodeElement AA, D.decodeElement XX with
    | some A, some X => some (D.expElem (D.mulElems X (D.expElem A d)) sB)
    | _, _ => none
  | Role.Client =>
    let x := beNat (eph.take (StaticPrivateKeyLength D))
    let a := beNat (spk.take (StaticPrivateKeyLength D))
    let sA := (x + d * a) % q
    match D.decodeElement BB, D.decodeElement YY with
    | some B, some Y => some (D.expElem (D.mulElems Y (D.expElem B e)) sA)
    | _, _ => none

/-- The body of `Agree`'s `try` block.  `.error ()` models a
`DL_BadElement` escaping to the `catch`; `.ok none` models the explicit
`return false` paths (failed validation); `.ok (some v)` models reaching
the final `Hash` with output `v`. -/
def AgreeBody (D : Dom Element) (role : Role)
    (spk eph sopk eopk : List Nat) (flag : Bool) :
    Except Unit (Option (List Nat)) :=
  let XX := labelXX D role eph eopk
  let YY := labelYY D role eph eopk
  let AA := labelAA D role spk sopk
  let BB := labelBB D role spk sopk
  match D.decodeElement sopk with
  | none => Except.error ()
  | some VV1 =>
    if D.validateElement (if flag then 3 else 1) VV1 then
      match D.decodeElement eopk with
      | none => Except.error ()
      | some VV2 =>
        if D.validateElement 3 VV2 then
          let d := challengeD D XX YY AA BB
          let e := challengeE D XX YY AA BB
          match computeSigma D role spk eph d e XX YY AA BB with
          | none => Except.error ()
          | some sigma =>
            Except.ok (some (HashFn D (some sigma) XX YY AA BB D.digestSize))
        else Except.ok none
    else Except.ok none

/-- `Agree`: returns the boolean result together with the final contents
of the caller's `agreedValue` buffer.  The `catch (DL_BadElement)` and
the `return false` paths both leave the buffer as it was. -/
def Agree (D : Dom Element) (role : Role) (agreedValue : List Nat)
    (spk eph sopk eopk : List Nat) (flag : Bool) : Bool × List Nat :=
  match AgreeBody D role spk eph sopk eopk flag with
  | Except.error _ => (false, agreedValue)
  | Except.ok none => (false, agreedValue)
  | Except.ok (some v) => (true, v)

/-- `GenerateStaticPrivateKey`: draw `x` in `[1, MaxExponent]`, encode
fixed-width. -/
def GenerateStaticPrivateKey (D : Dom Element) (rng : RNG) : List Nat :=
  beEncode (rng 1 D.maxExponent) (StaticPrivateKeyLength D)

/-- `GenerateStaticPublicKey`: decode the scalar, exponentiate the base,
encode the element.  The `rng` parameter is part of the signature but
unused by the body, as in the source. -/
def GenerateStaticPublicKey (D : Dom Element) (rng : RNG)
    (privateKey : List Nat) : List Nat :=
  D.encodeElement (D.expBase (beNat (privateKey.take (StaticPrivateKeyLength D))))

/-- `GenerateEphemeralPrivateKey`: scalar encoding followed by the
encoding of its public element. -/
def GenerateEphemeralPrivateKey (D : Dom Element) (rng : RNG) : List Nat :=
  let x := rng 1 D.maxExponent
  beEncode x (StaticPrivateKeyLength D) ++ D.encodeElement (D.expBase x)

/-- `GenerateEphemeralPublicKey`: `memcpy` of the trailing
`EphemeralPublicKeyLength()` bytes of the blob; `rng` is unused, as in
the source. -/
def GenerateEphemeralPublicKey (D : Dom Element) (rng : RNG)
    (privateKey : List Nat) : List Nat :=
  (privateKey.drop (StaticPrivateKeyLength D)).take (EphemeralPublicKeyLength D)

/-- Lawfulness of a group-parameter object: `expBase` lands in the
subgroup of order dividing `q`, the element codec round-trips on
subgroup elements, honest elements validate at every level, and the
element encoding has the advertised fixed size.  These are the external
contracts §6 of the spec assumes of the provider. -/
structure Lawful (D : Dom Element) : Prop where
  exp_exp : ∀ n m : Nat, D.expElem (D.expBase n) m = D.expBase (n * m)
  mul_exp : ∀ n m : Nat, D.mulElems (D.expBase n) (D.expBase m) = D.expBase (n + m)
  exp_mod : ∀ n : Nat, D.expBase (n % D.subgroupOrder) = D.expBase n
  decode_encode : ∀ n : Nat,
    D.decodeElement (D.encodeElement (D.expBase n)) = some (D.expBase n)
  validate_base : ∀ lvl n : Nat, D.validateElement lvl (D.expBase n) = true
  encode_len : ∀ e : Element, (D.encodeElement e).length = D.encodedElementSize

/-- A deterministic toy hash with a 2-byte digest, standing in for the
hash primitive in concrete runs. -/
def toyHash (bs : List Nat) : List Nat :=
  [bs.foldl (fun a b => (a * 31 + b + 1) % 256) 7,
   bs.foldl (fun a b => (a * 131 + 2 * b + 5) % 251) 3]

/-- A concrete domain over the multiplicative group mod 23 with
generator 2 of order 11, one-byte element encodings and the toy hash. -/
def DToy : Dom Nat where
  groupOrder := 23
  subgroupOrder := 11
  maxExponent := 10
  encodedElementSize := 1
  expBase := fun n => 2 ^ n % 23
  expElem := fun e n => e ^ n % 23
  mulElems := fun a b => a * b % 23
  encodeElement := fun e => [e % 256]
  decodeElement := fun bs =>
    let v := beNat (bs.take 1)
    if 1 ≤ v ∧ v < 23 then some v else none
  validateElement := fun lvl e =>
    decide (1 ≤ e ∧ e < 23 ∧ (lvl ≤ 1 ∨ e ^ 11 % 23 = 1))
  digestSize := 2
  hashFn := toyHash

lemma two_pow_mod23 (n : Nat) : 2 ^ n % 23 = 2 ^ (n % 11) % 23 := by
  conv_lhs => rw [← Nat.div_add_mod n 11]
  rw [pow_add, pow_mul, Nat.mul_mod, Nat.pow_mod]
  norm_num [Nat.mod_mod_of_dvd]

lemma toy_base_range (n : Nat) :
    1 ≤ 2 ^ n % 23 ∧ 2 ^ n % 23 < 23 ∧ (2 ^ n % 23) ^ 11 % 23 = 1 := by
  rw [two_pow_mod23]
  have h : n % 11 < 11 := Nat.mod_lt _ (by norm_num)
  interval_cases h₂ : n % 11 <;> decide

lemma lawful_DToy : Lawful DToy := by
  constructor
  · intro n m
    show (2 ^ n % 23) ^ m % 23 = 2 ^ (n * m) % 23
    rw [← Nat.pow_mod, ← pow_mul]
  · intro n m
    show (2 ^ n % 23) * (2 ^ m % 23) % 23 = 2 ^ (n + m) % 23
    rw [← Nat.mul_mod, ← pow_add]
  · intro n
    show 2 ^ (n % 11) % 23 = 2 ^ n % 23
    exact (two_pow_mod23 n).symm
  · intro n
    show DToy.decodeElement [2 ^ n % 23 % 256] = some (2 ^ n % 23)
    have h := toy_base_range n
    have h256 : 2 ^ n % 23 % 256 = 2 ^ n % 23 :=
      Nat.mod_eq_of_lt (lt_trans h.2.1 (by norm_num))
    simp only [DToy, h256, beNat, List.take, List.foldl]
    rw [if_pos]
    · simp [beNat]
    · simpa [beNat] using ⟨h.1, h.2.1⟩
  · intro lvl n
    have h := toy_base_range n
    simp only [DToy, decide_eq_true_eq]
    exact ⟨h.1, h.2.1, Or.inr h.2.2⟩
  · intro e
    rfl

/-- C7: for every domain, `EphemeralPrivateKeyLength() =
StaticPrivateKeyLength() + StaticPublicKeyLength()`,
`EphemeralPublicKeyLength() = StaticPublicKeyLength()`, and
`AgreedValueLength()` equals the hash's native digest size. -/
theorem length_invariants (D : Dom Element) :
    EphemeralPrivateKeyLength D = StaticPrivateKeyLength D + StaticPublicKeyLength D ∧
    EphemeralPublicKeyLength D = StaticPublicKeyLength D ∧
    AgreedValueLength D = D.digestSize :=
  ⟨rfl, rfl, rfl⟩

/-- C10: `GenerateStaticPublicKey` and `GenerateEphemeralPublicKey`
never read their `RandomNumberGenerator` parameter: for any two
randomness sources and the same private-key bytes, the outputs are
identical, so the result depends only on the private key and the
domain's group parameters. -/
theorem public_key_generation_rng_independent (D : Dom Element)
    (rng₁ rng₂ : RNG) (privateKey : List Nat) :
    GenerateStaticPublicKey D rng₁ privateKey =
      GenerateStaticPublicKey D rng₂ privateKey ∧
    GenerateEphemeralPublicKey D rng₁ privateKey =
      GenerateEphemeralPublicKey D rng₂ privateKey :=
  ⟨rfl, rfl⟩

/-- C9: `Agree` is deterministic — with the role and group parameters
fixed, two calls on componentwise-identical input buffers and flags
yield the same success outcome and the same output-buffer contents.
The embedding reflects that the C++ body reads no randomness source and
no mutable state besides its arguments. -/
theorem agree_deterministic (D : Dom Element) (role : Role)
    (buf buf' spk spk' eph eph' sopk sopk' eopk eopk' : List Nat)
    (flag flag' : Bool)
    (hbuf : buf = buf') (hspk : spk = spk') (heph : eph = eph')
    (hsopk : sopk = sopk') (heopk : eopk = eopk') (hflag : flag = flag') :
    Agree D role buf spk eph sopk eopk flag =
      Agree D role buf' spk' eph' sopk' eopk' flag' := by
  subst hbuf hspk heph hsopk heopk hflag
  rfl

/-- C9 witness: a concrete pair of identical calls on `DToy`. -/
theorem agree_deterministic_witness :
    ([0, 0] : List Nat) = [0, 0] ∧ ([3] : List Nat) = [3] ∧
    ([5, 9] : List Nat) = [5, 9] ∧ ([16] : List Nat) = [16] ∧
    ([18] : List Nat) = [18] ∧ true = true ∧
    Agree DToy Role.Client [0, 0] [3] [5, 9] [16] [18] true =
      Agree DToy Role.Client [0, 0] [3] [5, 9] [16] [18] true :=
  ⟨rfl, rfl, rfl, rfl, rfl, rfl,
    agree_deterministic DToy Role.Client [0, 0] [0, 0] [3] [3] [5, 9] [5, 9]
      [16] [16] [18] [18] true true rfl rfl rfl rfl rfl rfl⟩

/-- C6: `Agree` never propagates an exception (every `DL_BadElement` is
converted to the boolean failure result by the wrapper) and is atomic:
on every failing run the caller's `agreedValue` buffer is returned
unchanged — it is written only after all checks and the sigma
computation succeed. -/
theorem agree_atomic_on_failure (D : Dom Element) (role : Role)
    (agreedValue spk eph sopk eopk : List Nat) (flag : Bool)
    (hfail : (Agree D role agreedValue spk eph sopk eopk flag).1 = false) :
    (Agree D role agreedValue spk eph sopk eopk flag).2 = agreedValue := by
  unfold Agree at hfail ⊢
  cases h : AgreeBody D role spk eph sopk eopk flag with
  | error u => rfl
  | ok o =>
    cases o with
    | none => rfl
    | some v => rw [h] at hfail; simp at hfail

/-- C6 witness: a concrete failing run on `DToy` (the counterpart static
key decodes to 0, which is outside the group), leaving the buffer as it
was. -/
theorem agree_atomic_on_failure_witness :
    (Agree DToy Role.Client [9, 9] [3] [5, 9] [0] [18] true).1 = false ∧
    (Agree DToy Role.Client [9, 9] [3] [5, 9] [0] [18] true).2 = [9, 9] :=
  ⟨by decide,
    agree_atomic_on_failure DToy Role.Client [9, 9] [3] [5, 9] [0] [18] true
      (by decide)⟩

/-- C4 counterexample: the claim's formula
`ceil(ceil((bitlength(q)+1)/2)/8)` disagrees with the length `Agree`
computes at the 16-bit subgroup order `q = 32768`: the code yields 1
byte, the formula 2. -/
theorem challenge_len_claim_false :
    challengeLen 32768 = 1 ∧
    ceilDivNat (ceilDivNat (bitCount 32768 + 1) 2) 8 = 2 := by
  constructor <;> decide

/-- C4 (amended): the truncation length used by `Agree` equals
`ceil(ceil(bitlength(q)/2)/8)` bytes — the inner division rounds the
bit length itself up to a half, i.e. `floor((bitlength(q)+1)/2)`, not
`ceil((bitlength(q)+1)/2)`. -/
theorem challenge_len_eq (q : Nat) :
    challengeLen q = ceilDivNat (ceilDivNat (bitCount q) 2) 8 := by
  unfold challengeLen ceilDivNat
  omega

/-- C3: for any labelled operands, challenge `d` is the truncated hash
of `X‖Y‖A‖B` (no sigma prefix) read big-endian, challenge `e` the same
with the `X` and `Y` operands swapped, `A`,`B` fixed; the side condition
says the truncation length does not exceed the digest size, which holds
for every instantiation shipped with the code. -/
theorem challenges_from_hash (D : Dom Element) (XX YY AA BB : List Nat)
    (hlen : challengeLen D.subgroupOrder ≤ D.digestSize) :
    challengeD D XX YY AA BB =
      beNat ((D.hashFn (XX ++ YY ++ AA ++ BB)).take (challengeLen D.subgroupOrder)) ∧
    challengeE D XX YY AA BB =
      beNat ((D.hashFn (YY ++ XX ++ AA ++ BB)).take (challengeLen D.subgroupOrder)) ∧
    challengeE D XX YY AA BB = challengeD D YY XX AA BB := by
  unfold challengeD challengeE HashFn
  simp [Nat.min_eq_left hlen]

/-- C3 witness: concrete operands on `DToy`, whose challenge length is
1 byte against a 2-byte digest. -/
theorem challenges_from_hash_witness :
    challengeLen DToy.subgroupOrder ≤ DToy.digestSize ∧
    (challengeD DToy [9] [18] [8] [16] =
      beNat ((DToy.hashFn ([9] ++ [18] ++ [8] ++ [16])).take
        (challengeLen DToy.subgroupOrder)) ∧
    challengeE DToy [9] [18] [8] [16] =
      beNat ((DToy.hashFn ([18] ++ [9] ++ [8] ++ [16])).take
        (challengeLen DToy.subgroupOrder)) ∧
    challengeE DToy [9] [18] [8] [16] = challengeD DToy [18] [9] [8] [16]) :=
  ⟨by decide, challenges_from_hash DToy [9] [18] [8] [16] (by decide)⟩

lemma agreeBody_success (D : Dom Element) (role : Role)
    (spk eph sopk eopk : List Nat) (flag : Bool) (V1 V2 : Element)
    (sigma : Element)
    (h1 : D.decodeElement sopk = some V1)
    (h2 : D.validateElement (if flag then 3 else 1) V1 = true)
    (h3 : D.decodeElement eopk = some V2)
    (h4 : D.validateElement 3 V2 = true)
    (h5 : computeSigma D role spk eph
      (challengeD D (labelXX D role eph eopk) (labelYY D role eph eopk)
        (labelAA D role spk sopk) (labelBB D role spk sopk))
      (challengeE D (labelXX D role eph eopk) (labelYY D role eph eopk)
        (labelAA D role spk sopk) (labelBB D role spk sopk))
      (labelXX D role eph eopk) (labelYY D role eph eopk)
      (labelAA D role spk sopk) (labelBB D role spk sopk) = some sigma) :
    AgreeBody D role spk eph sopk eopk flag =
      Except.ok (some (HashFn D (some sigma) (labelXX D role eph eopk)
        (labelYY D role eph eopk) (labelAA D role spk sopk)
        (labelBB D role spk sopk) D.digestSize)) := by
  simp only [AgreeBody, h1, h2, h3, h4, h5, if_true, eq_self_iff_true]

lemma agree_of_body_ok (D : Dom Element) (role : Role)
    (buf spk eph sopk eopk : List Nat) (flag : Bool) (v : List Nat)
    (h : AgreeBody D role spk eph sopk eopk flag = Except.ok (some v)) :
    Agree D role buf spk eph sopk eopk flag = (true, v) := by
  unfold Agree
  rw [h]

lemma agreeBody_ok_inv (D : Dom Element) (role : Role)
    (spk eph sopk eopk : List Nat) (flag : Bool) (v : List Nat)
    (h : AgreeBody D role spk eph sopk eopk flag = Except.ok (some v)) :
    ∃ V1 V2 : Element,
      D.decodeElement sopk = some V1 ∧
      D.validateElement (if flag then 3 else 1) V1 = true ∧
      D.decodeElement eopk = some V2 ∧
      D.validateElement 3 V2 = true := by
  simp only [AgreeBody] at h
  split at h
  · exact Except.noConfusion h
  · rename_i V1 hV1
    by_cases hval1 : D.validateElement (if flag then 3 else 1) V1 = true
    · rw [if_pos hval1] at h
      split at h
      · exact Except.noConfusion h
      · rename_i V2 hV2
        by_cases hval2 : D.validateElement 3 V2 = true
        · exact ⟨V1, V2, hV1, hval1, hV2, hval2⟩
        · rw [if_neg hval2] at h
          injection h with h₂
          exact Option.noConfusion h₂
    · rw [if_neg hval1] at h
      injection h with h₂
      exact Option.noConfusion h₂

/-- C5: whenever `Agree` succeeds, the counterpart's static public key
was decoded and passed validation at level 3 if
`validateStaticOtherPublicKey` was set and level 1 otherwise, and the
counterpart's ephemeral public key was decoded and passed validation at
level 3 unconditionally; contrapositively, `Agree` reports failure
whenever either key fails to decode or fails its required level. -/
theorem agree_validation_discipline (D : Dom Element) (role : Role)
    (buf spk eph sopk eopk : List Nat) (flag : Bool)
    (hsucc : (Agree D role buf spk eph sopk eopk flag).1 = true) :
    ∃ V1 V2 : Element,
      D.decodeElement sopk = some V1 ∧
      D.validateElement (if flag then 3 else 1) V1 = true ∧
      D.decodeElement eopk = some V2 ∧
      D.validateElement 3 V2 = true := by
  unfold Agree at hsucc
  cases hB : AgreeBody D role spk eph sopk eopk flag with
  | error u => rw [hB] at hsucc; simp at hsucc
  | ok o =>
    cases o with
    | none => rw [hB] at hsucc; simp at hsucc
    | some v => exact agreeBody_ok_inv D role spk eph sopk eopk flag v hB

/-- C5 witness: a concrete successful run on `DToy` with
`validateStaticOtherPublicKey = false`, yielding the decoded and
validated elements. -/
theorem agree_validation_discipline_witness :
    (Agree DToy Role.Client [0, 0] [3] [5, 9] [16] [18] false).1 = true ∧
    (∃ V1 V2 : Nat,
      DToy.decodeElement [16] = some V1 ∧
      DToy.validateElement (if false then 3 else 1) V1 = true ∧
      DToy.decodeElement [18] = some V2 ∧
      DToy.validateElement 3 V2 = true) :=
  ⟨by decide,
    agree_validation_discipline DToy Role.Client [0, 0] [3] [5, 9] [16] [18]
      false (by decide)⟩

/-- Modelled after the spec's Client formula: `s_A = (x + d·a) mod q`,
`sigma = (Y · B^e)^{s_A}`; stated separately so the implementation can
be compared against it. -/
def specSigmaClient (D : Dom Element) (a x d e : Nat) (B Y : Element) : Element :=
  D.expElem (D.mulElems Y (D.expElem B e)) ((x + d * a) % D.subgroupOrder)

/-- Modelled after the spec's Server formula: `s_B = (y + e·b) mod q`,
`sigma = (X · A^d)^{s_B}`. -/
def specSigmaServer (D : Dom Element) (b y d e : Nat) (A X : Element) : Element :=
  D.expElem (D.mulElems X (D.expElem A d)) ((y + e * b) % D.subgroupOrder)

/-- Shared workhorse: on the success path, each role's `Agree` output is
the final hash over the shared element given by the spec's per-role
formula. -/
lemma agree_roles_spec (D : Dom Element)
    (buf spk eph sopk eopk : List Nat) (flag : Bool) (V1 V2 : Element)
    (hd1 : D.decodeElement sopk = some V1)
    (hv1 : D.validateElement (if flag then 3 else 1) V1 = true)
    (hd2 : D.decodeElement eopk = some V2)
    (hv2 : D.validateElement 3 V2 = true) :
    Agree D Role.Client buf spk eph sopk eopk flag =
      (true, HashFn D
        (some (specSigmaClient D (beNat (spk.take (StaticPrivateKeyLength D)))
          (beNat (eph.take (StaticPrivateKeyLength D)))
          (challengeD D (ephPublicPart D eph) eopk (ownStaticPub D spk) sopk)
          (challengeE D (ephPublicPart D eph) eopk (ownStaticPub D spk) sopk)
          V1 V2))
        (ephPublicPart D eph) eopk (ownStaticPub D spk) sopk D.digestSize) ∧
    Agree D Role.Server buf spk eph sopk eopk flag =
      (true, HashFn D
        (some (specSigmaServer D (beNat (spk.take (StaticPrivateKeyLength D)))
          (beNat (eph.take (StaticPrivateKeyLength D)))
          (challengeD D eopk (ephPublicPart D eph) sopk (ownStaticPub D spk))
          (challengeE D eopk (ephPublicPart D eph) sopk (ownStaticPub D spk))
          V1 V2))
        eopk (ephPublicPart D eph) sopk (ownStaticPub D spk) D.digestSize) := by
  constructor
  · apply agree_of_body_ok
    apply agreeBody_success D Role.Client spk eph sopk eopk flag V1 V2 _ hd1 hv1 hd2 hv2
    simp only [computeSigma, labelXX, labelYY, labelAA, labelBB, hd1, hd2,
      specSigmaClient]
  · apply agree_of_body_ok
    apply agreeBody_success D Role.Server spk eph sopk eopk flag V1 V2 _ hd1 hv1 hd2 hv2
    simp only [computeSigma, labelXX, labelYY, labelAA, labelBB, hd1, hd2,
      specSigmaServer]

/-- C2: in each role, whenever the counterpart keys decode and validate,
`Agree` succeeds and its output is the final hash over the shared
element computed exactly by the spec's per-role formula — Client:
`sigma = (Y · B^e)^{(x + d·a) mod q}`, Server:
`sigma = (X · A^d)^{(y + e·b) mod q}` — with `a`/`b` decoded from the
static private key bytes and `x`/`y` from the leading
`StaticPrivateKeyLength()` bytes of the ephemeral private blob. -/
theorem agree_sigma_formula (D : Dom Element)
    (buf spk eph sopk eopk : List Nat) (flag : Bool) (V1 V2 : Element)
    (hd1 : D.decodeElement sopk = some V1)
    (hv1 : D.validateElement (if flag then 3 else 1) V1 = true)
    (hd2 : D.decodeElement eopk = some V2)
    (hv2 : D.validateElement 3 V2 = true) :
    Agree D Role.Client buf spk eph sopk eopk flag =
      (true, HashFn D
        (some (specSigmaClient D (beNat (spk.take (StaticPrivateKeyLength D)))
          (beNat (eph.take (StaticPrivateKeyLength D)))
          (challengeD D (ephPublicPart D eph) eopk (ownStaticPub D spk) sopk)
          (challengeE D (ephPublicPart D eph) eopk (ownStaticPub D spk) sopk)
          V1 V2))
        (ephPublicPart D eph) eopk (ownStaticPub D spk) sopk D.digestSize) ∧
    Agree D Role.Server buf spk eph sopk eopk flag =
      (true, HashFn D
        (some (specSigmaServer D (beNat (spk.take (StaticPrivateKeyLength D)))
          (beNat (eph.take (StaticPrivateKeyLength D)))
          (challengeD D eopk (ephPublicPart D eph) sopk (ownStaticPub D spk))
          (challengeE D eopk (ephPublicPart D eph) sopk (ownStaticPub D spk))
          V1 V2))
        eopk (ephPublicPart D eph) sopk (ownStaticPub D spk) D.digestSize) :=
  agree_roles_spec D buf spk eph sopk eopk flag V1 V2 hd1 hv1 hd2 hv2

/-- C2 witness: the formula instantiated on a concrete `DToy` run in
each role. -/
theorem agree_sigma_formula_witness :
    DToy.decodeElement [16] = some 16 ∧
    DToy.validateElement (if true then 3 else 1) 16 = true ∧
    DToy.decodeElement [18] = some 18 ∧
    DToy.validateElement 3 18 = true ∧
    (Agree DToy Role.Client [0, 0] [3] [5, 9] [16] [18] true =
      (true, HashFn DToy
        (some (specSigmaClient DToy (beNat ([3].take (StaticPrivateKeyLength DToy)))
          (beNat ([5, 9].take (StaticPrivateKeyLength DToy)))
          (challengeD DToy (ephPublicPart DToy [5, 9]) [18] (ownStaticPub DToy [3]) [16])
          (challengeE DToy (ephPublicPart DToy [5, 9]) [18] (ownStaticPub DToy [3]) [16])
          16 18))
        (ephPublicPart DToy [5, 9]) [18] (ownStaticPub DToy [3]) [16] DToy.digestSize) ∧
    Agree DToy Role.Server [0, 0] [3] [5, 9] [16] [18] true =
      (true, HashFn DToy
        (some (specSigmaServer DToy (beNat ([3].take (StaticPrivateKeyLength DToy)))
          (beNat ([5, 9].take (StaticPrivateKeyLength DToy)))
          (challengeD DToy [18] (ephPublicPart DToy [5, 9]) [16] (ownStaticPub DToy [3]))
          (challengeE DToy [18] (ephPublicPart DToy [5, 9]) [16] (ownStaticPub DToy [3]))
          16 18))
        [18] (ephPublicPart DToy [5, 9]) [16] (ownStaticPub DToy [3]) DToy.digestSize)) :=
  ⟨by decide, by decide, by decide, by decide,
    agree_sigma_formula DToy [0, 0] [3] [5, 9] [16] [18] true 16 18
      (by decide) (by decide) (by decide) (by decide)⟩

lemma beEncode_length (n len : Nat) : (beEncode n len).length = len := by
  simp [beEncode]

/-- C1: mutual agreement.  For any lawful group-parameter provider and
honest key material `A = g^a`, `B = g^b`, `X = g^x`, `Y = g^y` (the
public encodings generated from the private byte strings), the
Client-role `Agree` on `(a, x‖X, B, Y)` and the Server-role `Agree` on
`(b, y‖Y, A, X)` both succeed, compute the same shared element
`sigma = g^((x+da)(y+eb))`, and return identical agreed-value byte
strings. -/
theorem fhmqv_mutual_agreement (D : Dom Element) (hL : Lawful D)
    (aB bB xB yB buf₁ buf₂ : List Nat) (v₁ v₂ : Bool)
    (ha : aB.length = StaticPrivateKeyLength D)
    (hb : bB.length = StaticPrivateKeyLength D)
    (hx : xB.length = StaticPrivateKeyLength D)
    (hy : yB.length = StaticPrivateKeyLength D) :
    ∃ w : List Nat,
      Agree D Role.Client buf₁ aB
        (xB ++ D.encodeElement (D.expBase (beNat xB)))
        (D.encodeElement (D.expBase (beNat bB)))
        (D.encodeElement (D.expBase (beNat yB))) v₁ = (true, w) ∧
      Agree D Role.Server buf₂ bB
        (yB ++ D.encodeElement (D.expBase (beNat yB)))
        (D.encodeElement (D.expBase (beNat aB)))
        (D.encodeElement (D.expBase (beNat xB))) v₂ = (true, w) := by
  have htakeA : aB.take (StaticPrivateKeyLength D) = aB := by
    rw [← ha]; exact List.take_length aB
  have htakeB : bB.take (StaticPrivateKeyLength D) = bB := by
    rw [← hb]; exact List.take_length bB
  have htakeXB : (xB ++ D.encodeElement (D.expBase (beNat xB))).take
      (StaticPrivateKeyLength D) = xB := by
    rw [← hx]; exact List.take_left xB _
  have htakeYB : (yB ++ D.encodeElement (D.expBase (beNat yB))).take
      (StaticPrivateKeyLength D) = yB := by
    rw [← hy]; exact List.take_left yB _
  have hxpart : ephPublicPart D (xB ++ D.encodeElement (D.expBase (beNat xB))) =
      D.encodeElement (D.expBase (beNat xB)) := by
    unfold ephPublicPart EphemeralPublicKeyLength StaticPublicKeyLength
    rw [← hx, List.drop_left, ← hL.encode_len (D.expBase (beNat xB)),
      List.take_length]
  have hypart : ephPublicPart D (yB ++ D.encodeElement (D.expBase (beNat yB))) =
      D.encodeElement (D.expBase (beNat yB)) := by
    unfold ephPublicPart EphemeralPublicKeyLength StaticPublicKeyLength
    rw [← hy, List.drop_left, ← hL.encode_len (D.expBase (beNat yB)),
      List.take_length]
  obtain ⟨hc, _⟩ := agree_roles_spec D buf₁ aB
    (xB ++ D.encodeElement (D.expBase (beNat xB)))
    (D.encodeElement (D.expBase (beNat bB)))
    (D.encodeElement (D.expBase (beNat yB))) v₁
    (D.expBase (beNat bB)) (D.expBase (beNat yB))
    (hL.decode_encode (beNat bB)) (hL.validate_base _ _)
    (hL.decode_encode (beNat yB)) (hL.validate_base _ _)
  obtain ⟨_, hs⟩ := agree_roles_spec D buf₂ bB
    (yB ++ D.encodeElement (D.expBase (beNat yB)))
    (D.encodeElement (D.expBase (beNat aB)))
    (D.encodeElement (D.expBase (beNat xB))) v₂
    (D.expBase (beNat aB)) (D.expBase (beNat xB))
    (hL.decode_encode (beNat aB)) (hL.validate_base _ _)
    (hL.decode_encode (beNat xB)) (hL.validate_base _ _)
  simp only [hxpart, hypart, ownStaticPub, htakeA, htakeB, htakeXB, htakeYB,
    specSigmaClient, specSigmaServer, hL.exp_exp, hL.mul_exp] at hc hs
  have key : D.expBase ((beNat yB + beNat bB * challengeE D
        (D.encodeElement (D.expBase (beNat xB)))
        (D.encodeElement (D.expBase (beNat yB)))
        (D.encodeElement (D.expBase (beNat aB)))
        (D.encodeElement (D.expBase (beNat bB)))) *
      ((beNat xB + challengeD D
        (D.encodeElement (D.expBase (beNat xB)))
        (D.encodeElement (D.expBase (beNat yB)))
        (D.encodeElement (D.expBase (beNat aB)))
        (D.encodeElement (D.expBase (beNat bB))) * beNat aB) % D.subgroupOrder)) =
      D.expBase ((beNat xB + beNat aB * challengeD D
        (D.encodeElement (D.expBase (beNat xB)))
        (D.encodeElement (D.expBase (beNat yB)))
        (D.encodeElement (D.expBase (beNat aB)))
        (D.encodeElement (D.expBase (beNat bB)))) *
      ((beNat yB + challengeE D
        (D.encodeElement (D.expBase (beNat xB)))
        (D.encodeElement (D.expBase (beNat yB)))
        (D.encodeElement (D.expBase (beNat aB)))
        (D.encodeElement (D.expBase (beNat bB))) * beNat bB) % D.subgroupOrder)) := by
    rw [← hL.exp_mod ((beNat yB + beNat bB * _) * _),
      ← hL.exp_mod ((beNat xB + beNat aB * _) * _)]
    congr 1
    rw [Nat.mul_mod, Nat.mod_mod_of_dvd _ dvd_rfl, ← Nat.mul_mod,
      Nat.mul_mod (beNat xB + beNat aB * _), Nat.mod_mod_of_dvd _ dvd_rfl,
      ← Nat.mul_mod]
    ring_nf
  rw [key] at hc
  exact ⟨_, hc, hs⟩

/-- C1 witness: a full honest run on the toy domain with
`a = 3, b = 4, x = 5, y = 6`. -/
theorem fhmqv_mutual_agreement_witness :
    Lawful DToy ∧
    ([3] : List Nat).length = StaticPrivateKeyLength DToy ∧
    ([4] : List Nat).length = StaticPrivateKeyLength DToy ∧
    ([5] : List Nat).length = StaticPrivateKeyLength DToy ∧
    ([6] : List Nat).length = StaticPrivateKeyLength DToy ∧
    (∃ w : List Nat,
      Agree DToy Role.Client [0, 0] [3]
        ([5] ++ DToy.encodeElement (DToy.expBase (beNat [5])))
        (DToy.encodeElement (DToy.expBase (beNat [4])))
        (DToy.encodeElement (DToy.expBase (beNat [6]))) true = (true, w) ∧
      Agree DToy Role.Server [1, 1] [4]
        ([6] ++ DToy.encodeElement (DToy.expBase (beNat [6])))
        (DToy.encodeElement (DToy.expBase (beNat [3])))
        (DToy.encodeElement (DToy.expBase (beNat [5]))) false = (true, w)) :=
  ⟨lawful_DToy, by decide, by decide, by decide, by decide,
    fhmqv_mutual_agreement DToy lawful_DToy [3] [4] [5] [6] [0, 0] [1, 1]
      true false (by decide) (by decide) (by decide) (by decide)⟩

lemma drop_append_of_length {α : Type} (l₁ l₂ : List α) (n : Nat)
    (h : l₁.length = n) : (l₁ ++ l₂).drop n = l₂ := by
  rw [← h]; exact List.drop_left l₁ l₂

lemma take_of_length {α : Type} (l : List α) (n : Nat)
    (h : l.length = n) : l.take n = l := by
  rw [← h]; exact List.take_length l

/-- C8: for every blob produced by `GenerateEphemeralPrivateKey`,
`GenerateEphemeralPublicKey` returns exactly the trailing
`StaticPublicKeyLength()` bytes of the blob — a pure slice of the cached
public-key encoding, with no exponentiation.  The hypothesis is the
codec contract that element encodings have the advertised fixed size. -/
theorem ephemeral_public_extraction (D : Dom Element) (rng rng' : RNG)
    (hlen : ∀ el : Element, (D.encodeElement el).length = D.encodedElementSize) :
    GenerateEphemeralPublicKey D rng' (GenerateEphemeralPrivateKey D rng) =
      (GenerateEphemeralPrivateKey D rng).drop
        ((GenerateEphemeralPrivateKey D rng).length - StaticPublicKeyLength D) := by
  simp only [GenerateEphemeralPublicKey, GenerateEphemeralPrivateKey]
  have henc : (D.encodeElement (D.expBase (rng 1 D.maxExponent))).length =
      EphemeralPublicKeyLength D := hlen _
  have henc₂ : (D.encodeElement (D.expBase (rng 1 D.maxExponent))).length =
      StaticPublicKeyLength D := hlen _
  rw [drop_append_of_length _ _ _ (beEncode_length _ _),
    take_of_length _ _ henc, List.length_append, beEncode_length, henc₂,
    Nat.add_sub_cancel,
    drop_append_of_length _ _ _ (beEncode_length _ _)]

/-- C8 witness: concrete extraction on the toy domain with the drawn
scalar fixed to 5. -/
theorem ephemeral_public_extraction_witness :
    GenerateEphemeralPublicKey DToy (fun _ _ => 5)
        (GenerateEphemeralPrivateKey DToy (fun _ _ => 5)) =
      (GenerateEphemeralPrivateKey DToy (fun _ _ => 5)).drop
        ((GenerateEphemeralPrivateKey DToy (fun _ _ => 5)).length -
          StaticPublicKeyLength DToy) :=
  ephemeral_public_extraction DToy (fun _ _ => 5) (fun _ _ => 5)
    (fun el => rfl)
